import Mathlib

/-!
Shallow embedding of the redismb message-broker core
(Subscriber delivery engine, Publisher, dead-letter Reprocessor)
and proofs of the specification claims about it.

Sources embedded:
* subscriber: constructor validation, createGroup, parseMessages,
  filterMessages, filterPendingMessages, processMessages, rejectMessages,
  the continual-read cycle, unsubscribe;
* publisher: constructor validation and publish;
* redismb module: readRejectedMessages / reprocessRejectedMessages,
  in both of its two versions present in the repository.
-/

/-- A (flat) JavaScript value as used for message payloads: `undefined`,
a string, or a flat object of string fields.  The source only ever
shallow-merges such objects, so flat objects suffice for the model. -/
inductive JVal
  | undef
  | str (s : String)
  | obj (fields : List (String × String))
deriving DecidableEq, Repr

/-- A JavaScript string as stored in a stream field slot: either the JSON
serialization of some value (`jsonOf j`, produced by JSON.stringify j)
or a plain string that is not valid JSON (group names, channel names...). -/
inductive JStr
  | jsonOf (j : JVal)
  | plain (s : String)
deriving DecidableEq, Repr

/-- JSON.parse on a stored string: succeeds exactly on serializations. -/
def jsonParse : JStr → Option JVal
  | .jsonOf j => some j
  | .plain _ => none

/-- JavaScript truthiness of a possibly-absent string
(`undefined` and the empty string are falsy). -/
def jsTruthyStr : Option JStr → Bool
  | none => false
  | some (.plain s) => !s.isEmpty
  | some (.jsonOf _) => true

/-- Association-list lookup used by the object-spread model. -/
def objLookup (fields : List (String × String)) (k : String) : Option String :=
  match fields with
  | [] => none
  | (k', v) :: rest => if k' = k then some v else objLookup rest k

/-- Does the object have field `k`? -/
def objHas (fields : List (String × String)) (k : String) : Bool :=
  (objLookup fields k).isSome

/-- JavaScript object spread of two flat objects, as in the source's
`\x7b...message.data, ...newMessage.data\x7d`: the left object's keys in order,
overridden by the right object where shared, then the right object's new
keys in order (the override wins on key conflicts). -/
def spreadMerge (a b : List (String × String)) : List (String × String) :=
  (a.map (fun kv => (kv.1, (objLookup b kv.1).getD kv.2)))
    ++ b.filter (fun kv => !(objHas a kv.1))

/-- A raw stream entry as the store returns it: an id and the flattened
field-value list (the code only ever reads it positionally). -/
structure RawEntry where
  id : String
  values : List JStr
deriving DecidableEq, Repr

/-- A parsed message, the shape `#parseMessages` produces:
`\x7bid, action, data, date, clientId, group\x7d`. -/
structure ParsedMsg where
  id : String
  action : Option JStr
  data : JVal
  date : Option Nat
  clientId : String
  group : Option JStr
deriving DecidableEq, Repr

/-- Decimal digits to a number, `none` when a non-digit appears
(modelling the NaN that JS unary plus gives a non-numeric string). -/
def decNatAux : List Char → Nat → Option Nat
  | [], acc => some acc
  | c :: cs, acc =>
    if c.isDigit then decNatAux cs (acc * 10 + (c.toNat - 48)) else none

/-- The timestamp component of a store id: `+id.split('-')[0]`,
`none` modelling NaN (JS turns the empty prefix into 0). -/
def idTimestamp (id : String) : Option Nat :=
  decNatAux (id.toList.takeWhile (fun c => c ≠ '-')) 0

/-- `#parseMessages` from the subscriber, for one entry:
action from position 0, data from position 1 (JSON.parse with fallback to
the raw string, `undefined` when the slot is absent), the group tag read
from position 3 of the flattened value list. -/
def parseOneMessage (clientId : String) (e : RawEntry) : ParsedMsg :=
  { id := e.id
    action := e.values.get? 0
    data :=
      match e.values.get? 1 with
      | none => JVal.undef
      | some v =>
        match jsonParse v with
        | some j => j
        | none => match v with
                  | .plain s => JVal.str s
                  | .jsonOf j => j
    date := idTimestamp e.id
    clientId := clientId
    group := e.values.get? 3 }

/-- `#parseMessages` over a batch. -/
def parseMessages (clientId : String) (entries : List RawEntry) : List ParsedMsg :=
  entries.map (parseOneMessage clientId)

/-- The receive/skip decision of `#filterMessages`:
receive when the parsed group tag is falsy or equals the engine's group. -/
def shouldReceiveMessage (engineGroup : String) (m : ParsedMsg) : Bool :=
  !(jsTruthyStr m.group) || m.group = some (JStr.plain engineGroup)

/-- `#filterMessages`: partition a parsed batch into receive and skip,
preserving order as the source's reduce-with-push does. -/
def filterMessages (engineGroup : String) (msgs : List ParsedMsg) :
    List ParsedMsg × List ParsedMsg :=
  match msgs with
  | [] => ([], [])
  | m :: rest =>
    let r := filterMessages engineGroup rest
    if shouldReceiveMessage engineGroup m then (m :: r.1, r.2) else (r.1, m :: r.2)

/-- A pending-entry tuple as `xpending` returns it:
(id, owning consumer, idle ms, delivery-attempt count). -/
structure PendingEntry where
  id : String
  consumer : String
  idle : Nat
  attempts : Nat
deriving DecidableEq, Repr

/-- `#filterPendingMessages`: partition pending entries by attempt count;
attempts exceeding the retry limit go to reject, the rest to receive
(both lists carry only the ids, as in the source). -/
def filterPendingMessages (retries : Nat) (pending : List PendingEntry) :
    List String × List String :=
  match pending with
  | [] => ([], [])
  | e :: rest =>
    let r := filterPendingMessages retries rest
    if e.attempts > retries then (r.1, e.id :: r.2) else (e.id :: r.1, r.2)

/-- Outcome of one invocation of the user processing callback:
the returned promise resolves, it rejects with an error,
or the callback throws synchronously. -/
inductive CbOutcome
  | resolves
  | rejectsWith (e : String)
  | throwsSync (e : String)
deriving DecidableEq, Repr

/-- Observable store/engine events of the delivery engine. -/
inductive SubEvent
  | received (channel : String) (m : ParsedMsg)
  | acked (channel : String) (ids : List String) (status : String)
  | errorCb (err : String) (channel : Option String) (msg : Option ParsedMsg)
deriving DecidableEq, Repr

/-- Result of `#processMessages` on one batch: the events produced and,
when the user callback threw synchronously, the escaped exception
(the `messages.map` callback throws, so `Promise.all` is never built and
the exception leaves `#processMessages`). -/
structure ProcOutcome where
  events : List SubEvent
  thrown : Option String
deriving DecidableEq, Repr

/-- `#processMessages`: per message, log RECEIVED, invoke the callback;
a resolved promise leads to an ack with status CONFIRMED; a rejected
promise is caught and routed to the error callback with the channel and
the message; a synchronous throw escapes the `map`, so the remaining
messages of the batch are never dispatched.  (Events of one batch are
scheduled asynchronously in the source; the model fixes one
per-message order, which preserves which events occur.) -/
def processMessages (channel : String) (msgs : List ParsedMsg)
    (cb : ParsedMsg → CbOutcome) : ProcOutcome :=
  match msgs with
  | [] => ⟨[], none⟩
  | m :: rest =>
    match cb m with
    | .throwsSync e => ⟨[.received channel m], some e⟩
    | .resolves =>
      let r := processMessages channel rest cb
      ⟨.received channel m :: .acked channel [m.id] "CONFIRMED" :: r.events, r.thrown⟩
    | .rejectsWith e =>
      let r := processMessages channel rest cb
      ⟨.received channel m :: .errorCb e (some channel) (some m) :: r.events, r.thrown⟩

/-- One channel's portion of `#readMessages`: parse, split into
receive/skip, dispatch the receive set, then ack the skip set with
status SKIPPED.  A synchronous throw out of `#processMessages`
propagates at once, so the SKIPPED ack is not reached. -/
structure BatchResult where
  receiveSet : List ParsedMsg
  events : List SubEvent
  thrown : Option String
deriving DecidableEq, Repr

def readBatch (engineGroup clientId : String) (cb : ParsedMsg → CbOutcome)
    (channel : String) (entries : List RawEntry) : BatchResult :=
  let parsed := parseMessages clientId entries
  let rs := filterMessages engineGroup parsed
  let p := if rs.1.isEmpty then (⟨[], none⟩ : ProcOutcome)
           else processMessages channel rs.1 cb
  match p.thrown with
  | some e => ⟨rs.1, p.events, some e⟩
  | none =>
    let ackEv := if rs.2.isEmpty then []
                 else [SubEvent.acked channel (rs.2.map (fun m => m.id)) "SKIPPED"]
    ⟨rs.1, p.events ++ ackEv, none⟩

/-- The per-stream loop of `#readMessages`: a synchronous throw in one
stream's batch aborts the loop (later streams are not read out). -/
def readMessagesStep (engineGroup clientId : String) (cb : ParsedMsg → CbOutcome)
    (streams : List (String × List RawEntry)) : List SubEvent × Option String :=
  match streams with
  | [] => ([], none)
  | (ch, entries) :: rest =>
    let b := readBatch engineGroup clientId cb ch entries
    match b.thrown with
    | some e => (b.events, some e)
    | none =>
      let r := readMessagesStep engineGroup clientId cb rest
      (b.events ++ r.1, r.2)

/-- One iteration of the continual-read loop (`#continualRead`'s
`_recursiveCall`), restricted to the new-message path: when the awaited
`#readMessages` rejects (a synchronous callback throw), the surrounding
try/catch fires `logEventError(err)` with only the error — no channel,
no message — and does not recurse, so the cycle halts. -/
structure CycleResult where
  events : List SubEvent
  halted : Bool
deriving DecidableEq, Repr

def continualReadCycle (engineGroup clientId : String) (cb : ParsedMsg → CbOutcome)
    (streams : List (String × List RawEntry)) : CycleResult :=
  let r := readMessagesStep engineGroup clientId cb streams
  match r.2 with
  | some e => ⟨r.1 ++ [SubEvent.errorCb e none none], true⟩
  | none => ⟨r.1, false⟩

/-! ### Pending sweep: retry and dead-letter trace (subscriber) -/

/-- State of one message inside the engine-plus-store system, for the
retry/reject trace of the pending sweep: the delivery-attempt count while
the message is pending (`none` once it leaves the pending entry list),
whether it has been acknowledged, how many times the receive path
re-dispatched it, and the contents of the dead-letter stream. -/
structure MsgTraceState where
  attempts : Option Nat
  acked : Bool
  retryDispatches : Nat
  rejections : List RawEntry
deriving DecidableEq, Repr

/-- The action slot of a parsed message as `xadd` receives it
(JS coerces `undefined` to the string "undefined"). -/
def actionSlot (m : ParsedMsg) : JStr :=
  match m.action with
  | some a => a
  | none => .plain "undefined"

/-- One pending sweep of `#readPendingMessages` for a single message whose
callback always fails, assuming it has been idle past the ack timeout
(it is unacknowledged, so it stays idle between sweeps).  The sweep runs
`#filterPendingMessages` on the pending entry; the receive side is
claimed (the claim increments the store's attempt counter) and
re-dispatched, where the callback fails again so no ack happens; the
reject side is claimed, acknowledged with status REJECTED (leaving the
pending entry list) and appended once to the `rejections` stream with the
message's action, its re-serialized data, the engine's group and the
origin channel. -/
def sweepOnce (retries : Nat) (channel engineGroup clientId dlId : String)
    (entry : RawEntry) (idleMs : Nat) (st : MsgTraceState) : MsgTraceState :=
  match st.attempts with
  | none => st
  | some att =>
    let rs := filterPendingMessages retries [⟨entry.id, clientId, idleMs, att⟩]
    if rs.1.isEmpty then
      let m := parseOneMessage clientId entry
      { attempts := none
        acked := true
        retryDispatches := st.retryDispatches
        rejections := st.rejections ++
          [⟨dlId, [actionSlot m, .jsonOf m.data, .plain engineGroup, .plain channel]⟩] }
    else
      { attempts := some (att + 1)
        acked := st.acked
        retryDispatches := st.retryDispatches + 1
        rejections := st.rejections }

/-- Iterated pending sweeps. -/
def runSweeps (retries : Nat) (channel engineGroup clientId dlId : String)
    (entry : RawEntry) (idleMs : Nat) : Nat → MsgTraceState → MsgTraceState
  | 0, st => st
  | n + 1, st =>
    runSweeps retries channel engineGroup clientId dlId entry idleMs n
      (sweepOnce retries channel engineGroup clientId dlId entry idleMs st)

/-- The state right after the first delivery whose callback failed:
one delivery attempt on the pending entry list, nothing acknowledged,
no reclaim yet, empty dead-letter stream. -/
def initialFailedState : MsgTraceState :=
  { attempts := some 1, acked := false, retryDispatches := 0, rejections := [] }

/-! ### Subscriber construction (validation and group creation) -/

/-- JS truthiness of a possibly-absent plain string. -/
def strTruthy : Option String → Bool
  | none => false
  | some s => !s.isEmpty

/-- The error callback argument as the constructor sees it: a function of
some declared arity, a truthy non-function value, or a falsy
non-function value (for which the `if (callback)` guard skips all
validation). -/
inductive CbModel
  | func (arity : Nat)
  | truthyNonFunc
  | falsyNonFunc
deriving DecidableEq, Repr

/-- The distinct construction-failure kinds the subscriber constructor can
raise: a plain Error with message MISSED_VALUE, a TypeError for a
non-function callback, and a plain Error for a callback arity outside
1..3. -/
inductive CtorErr
  | missedValue
  | typeErrNotFunction
  | arityError
deriving DecidableEq, Repr

/-- The parameter validation of the subscriber constructor:
`!channels` (an absent channels argument; a present array, even empty,
is truthy), `!group` (absent or empty group name), then — only for a
truthy callback — the typeof check and the declared-arity check. -/
def subscriberValidate (channels : Option (List String)) (group : Option String)
    (cb : CbModel) : Except CtorErr Unit :=
  if channels.isNone then .error .missedValue
  else if !(strTruthy group) then .error .missedValue
  else
    match cb with
    | .truthyNonFunc => .error .typeErrNotFunction
    | .falsyNonFunc => .ok ()
    | .func n => if n < 1 || n > 3 then .error .arityError else .ok ()

/-- The store's reply to one `XGROUP CREATE ... 0 MKSTREAM` call. -/
inductive GroupResp
  | created
  | busygroup
  | failed (e : String)
deriving DecidableEq, Repr

/-- `#createGroup`: requires a connection, then per channel issues the
group creation; a BUSYGROUP reply ("already exists") is treated as
success, any other failure is rethrown and aborts the loop. -/
def createGroup (conn : Bool) (resps : List GroupResp) : Except String Unit :=
  if !conn then .error "REDIS_CONNECTION"
  else
    match resps with
    | [] => .ok ()
    | .created :: rest => createGroup conn rest
    | .busygroup :: rest => createGroup conn rest
    | .failed e :: _ => .error e

/-! ### Publisher -/

structure PublisherCfg where
  channel : String
  maxLength : Nat
deriving DecidableEq, Repr

/-- The publisher constructor: a missing (or empty, hence falsy) channel
raises MISSED_VALUE; the retention cap defaults to 5000. -/
def publisherCtor (channel : Option String) (maxLength : Nat := 5000) :
    Except CtorErr PublisherCfg :=
  if !(strTruthy channel) then .error .missedValue
  else .ok ⟨channel.getD "", maxLength⟩

/-- A trim policy attached to an XADD: `MAXLEN ~ cap`
(approximate trimming). -/
inductive TrimPolicy
  | maxlenApprox (cap : Nat)
deriving DecidableEq, Repr

/-- An XADD command as the publisher issues it. -/
structure XAddCmd where
  stream : String
  trim : Option TrimPolicy
  entryId : String
  values : List JStr
deriving DecidableEq, Repr

/-- `publish(action, data)`: requires an active connection (else a
REDIS_CONNECTION error), serializes the data, appends to the configured
channel with `MAXLEN ~ maxLength` and a store-assigned id (`*`), and
returns that id. -/
def publish (conn : Bool) (cfg : PublisherCfg) (action : String) (data : JVal)
    (storeId : String) : Except String (XAddCmd × String) :=
  if !conn then .error "REDIS_CONNECTION"
  else .ok (⟨cfg.channel, some (.maxlenApprox cfg.maxLength), "*",
             [.plain action, .jsonOf data]⟩, storeId)

/-! ### unsubscribe -/

/-- The private run state `unsubscribe` mutates: the continue flag and
whether a periodic reading timer is installed. -/
structure SubRunState where
  continueReading : Bool
  timerActive : Bool
deriving DecidableEq, Repr

/-- The observable steps of `unsubscribe`, in program order. -/
inductive UEvent
  | stopReadingFlag
  | clearTimer
  | wait (ms : Nat)
  | delConsumer (channel group clientId : String)
deriving DecidableEq, Repr

structure UnsubResult where
  channels : List String
  result : String
deriving DecidableEq, Repr

/-- `unsubscribe(timeout = 60000)`: immediately clear the continue flag
and cancel the periodic timer if one is installed, wait the drain delay,
then delete this consumer from the group on each configured channel, and
return the channel list with the OK marker. -/
def unsubscribe (channels : List String) (group clientId : String)
    (st : SubRunState) (timeout : Nat := 60000) :
    SubRunState × List UEvent × UnsubResult :=
  ({ continueReading := false, timerActive := false },
   [UEvent.stopReadingFlag]
     ++ (if st.timerActive then [UEvent.clearTimer] else [])
     ++ [UEvent.wait timeout]
     ++ channels.map (fun ch => UEvent.delConsumer ch group clientId),
   ⟨channels, "OK"⟩)

/-! ### Dead-letter reprocessor (redismb module, both versions) -/

/-- Runtime errors of the reprocessor paths. -/
inductive JsErr
  | connectionMissing
  | syntaxErrorJson
  | typeErrorUndefinedField
  | typeErrorNotIterable
deriving DecidableEq, Repr

/-- A dead-letter record as `_readRejectedMessages` shapes it from a raw
`rejections` entry: id, and positionally action (0), JSON-parsed
data (1), group (2), channel (3). -/
structure DLRecord where
  id : String
  action : Option JStr
  data : JVal
  group : Option JStr
  channel : Option JStr
deriving DecidableEq, Repr

/-- `_readRejectedMessages`' per-record mapping.  Unlike the subscriber's
parser, `JSON.parse(record[1][1])` here has no try/catch: a missing or
non-JSON data slot throws. -/
def parseDLRecord (e : RawEntry) : Except JsErr DLRecord :=
  match e.values.get? 1 with
  | some (.jsonOf j) =>
    .ok ⟨e.id, e.values.get? 0, j, e.values.get? 2, e.values.get? 3⟩
  | _ => .error .syntaxErrorJson

/-- The same mapping, total, giving a junk payload on a malformed slot;
it agrees with `parseDLRecord` on well-formed entries. -/
def parseDLTotal (e : RawEntry) : DLRecord :=
  ⟨e.id, e.values.get? 0,
   (match e.values.get? 1 with
    | some (.jsonOf j) => j
    | _ => JVal.undef),
   e.values.get? 2, e.values.get? 3⟩

/-- The entry's data slot is a JSON serialization — true of everything
the system itself writes to `rejections`. -/
def wfEntry (e : RawEntry) : Bool :=
  match e.values.get? 1 with
  | some (.jsonOf _) => true
  | _ => false

/-- Every entry of the stream has a JSON-serialized data slot. -/
def dlWellFormed (store : List RawEntry) : Bool :=
  store.all wfEntry

/-- The `records.map` of `_readRejectedMessages`: throws at the first
malformed record. -/
def mapParseDL (records : List RawEntry) : Except JsErr (List DLRecord) :=
  match records with
  | [] => .ok []
  | e :: rest => do
    let r ← parseDLRecord e
    let rs ← mapParseDL rest
    .ok (r :: rs)

/-- `XRANGE rejections id id`: the entries with exactly that id. -/
def xrangeById (store : List RawEntry) (id : String) : List RawEntry :=
  store.filter (fun e => e.id = id)

/-- `XRANGE rejections from to` by entry timestamp. -/
def xrangeByTime (store : List RawEntry) (fromMs toMs : Nat) : List RawEntry :=
  store.filter (fun e =>
    match idTimestamp e.id with
    | some t => fromMs ≤ t && t ≤ toMs
    | none => false)

/-- The value `_readRejectedMessagesByIds` produces for one id:
the first matching record, or JS `undefined` when the id has no record
(the `if (message) return message` arm falls off the function). -/
def dlLookup (store : List RawEntry) (i : String) : Option DLRecord :=
  ((xrangeById store i).head?).map parseDLTotal

/-- `_readRejectedMessagesByIds`: per id, read the range `[id, id]` and
keep its (possibly undefined) head. -/
def readByIds (store : List RawEntry) (ids : List String) :
    Except JsErr (List (Option DLRecord)) :=
  match ids with
  | [] => .ok []
  | i :: rest => do
    let parsed ← mapParseDL (xrangeById store i)
    let restR ← readByIds store rest
    .ok (parsed.head? :: restR)

/-- The `if (action) messages.filter(...)` step: the JS filter evaluates
`event.action` on every element, so an `undefined` element (an id that
had no record) makes the call throw a TypeError; otherwise it keeps the
records whose action equals the filter. -/
def applyActionFilter (action : Option JStr) (msgs : List (Option DLRecord)) :
    Except JsErr (List (Option DLRecord)) :=
  match action with
  | none => .ok msgs
  | some a =>
    match msgs with
    | [] => .ok []
    | none :: _ => .error .typeErrorUndefinedField
    | some r :: rest => do
      let rs ← applyActionFilter (some a) rest
      .ok (if r.action = some a then some r :: rs else rs)

/-- Arguments of the second (later) `readRejectedMessages`:
ids, a time range, an action filter; with none of them set, it reads all
rejected messages. -/
structure ReadRejArgs where
  ids : Option (List String)
  fromMs : Option Nat
  toMs : Option Nat
  action : Option JStr
deriving DecidableEq, Repr

/-- The object `readRejectedMessages` returns:
the messages array and its length as count. -/
structure ReadRejResult where
  messages : List (Option DLRecord)
  count : Nat
deriving DecidableEq, Repr

/-- The second (later) `readRejectedMessages`: requires a connection;
dispatches on `ids?.length`, then `!!from && !!to`, defaulting to the
whole stream; applies the optional action filter; returns the messages
with their count. -/
def readRejectedMessagesV2 (conn : Bool) (store : List RawEntry)
    (args : ReadRejArgs) : Except JsErr ReadRejResult :=
  if !conn then .error .connectionMissing
  else do
    let base ←
      if args.ids.elim false (fun l => !l.isEmpty) then
        readByIds store (args.ids.getD [])
      else if args.fromMs.isSome && args.toMs.isSome then do
        let r ← mapParseDL (xrangeByTime store (args.fromMs.getD 0) (args.toMs.getD 0))
        pure (r.map some)
      else do
        let r ← mapParseDL store
        pure (r.map some)
    let filtered ← applyActionFilter args.action base
    .ok ⟨filtered, filtered.length⟩

/-- Arguments of the first (earlier) `readRejectedMessages`: same, plus
the explicit `all` flag (without any flag set it reads nothing). -/
structure ReadRejArgsV1 where
  ids : Option (List String)
  fromMs : Option Nat
  toMs : Option Nat
  action : Option JStr
  all : Bool
deriving DecidableEq, Repr

/-- The first (earlier) `readRejectedMessages`. -/
def readRejectedMessagesV1 (conn : Bool) (store : List RawEntry)
    (args : ReadRejArgsV1) : Except JsErr ReadRejResult :=
  if !conn then .error .connectionMissing
  else do
    let base ←
      if args.ids.elim false (fun l => !l.isEmpty) then
        readByIds store (args.ids.getD [])
      else if args.fromMs.isSome && args.toMs.isSome then do
        let r ← mapParseDL (xrangeByTime store (args.fromMs.getD 0) (args.toMs.getD 0))
        pure (r.map some)
      else if args.all then do
        let r ← mapParseDL store
        pure (r.map some)
      else
        pure []
    let filtered ← applyActionFilter args.action base
    .ok ⟨filtered, filtered.length⟩

/-- A caller-supplied per-id override record for `reprocess`. -/
structure OverrideMsg where
  id : String
  channel : Option JStr
  group : Option JStr
  data : Option JVal
deriving DecidableEq, Repr

/-- `messages?.find(({id}) => id === message.id)`. -/
def findOverride (overrides : Option (List OverrideMsg)) (id : String) :
    Option OverrideMsg :=
  overrides.bind (fun l => l.find? (fun o => o.id = id))

/-- JS `a || b` on possibly-absent strings. -/
def orElseJs (a b : Option JStr) : Option JStr :=
  if jsTruthyStr a then a else b

/-- JS truthiness of a possibly-absent value. -/
def jvTruthy : Option JVal → Bool
  | none => false
  | some .undef => false
  | some (.str s) => !s.isEmpty
  | some (.obj _) => true

/-- The enumerable own fields a value contributes to an object spread
(`undefined` contributes nothing; the claims only exercise object
payloads, which is all the reprocessor round-trips, since dead-letter
data is parsed JSON). -/
def objFields : JVal → List (String × String)
  | .obj fs => fs
  | _ => []

/-- The object spread of the override step. -/
def spreadData (a b : JVal) : JVal :=
  .obj (spreadMerge (objFields a) (objFields b))

/-- The republish XADD of the reprocessor (no trim policy; the stream
key is the possibly-overridden channel). -/
structure RepubCmd where
  stream : Option JStr
  entryId : String
  values : List JStr
deriving DecidableEq, Repr

/-- The store commands and bookkeeping of one loop iteration of
`reprocessRejectedMessages`. -/
structure ReprocessCmds where
  repub : RepubCmd
  xdelStream : String
  xdelId : String
  republished : DLRecord
deriving DecidableEq, Repr

/-- A possibly-absent string slot as an `xadd` argument
(JS coerces `undefined` to the string "undefined"). -/
def slotOrUndefined (v : Option JStr) : JStr :=
  v.getD (.plain "undefined")

/-- One iteration of the second `reprocessRejectedMessages` loop:
channel and group keep the record's own value whenever it is truthy and
fall back to the override's only otherwise; a truthy override data is
shallow-spread over the record's data (the override wins on shared
keys); then `XADD channel * action JSON.stringify(data) 'group' group`
and `XDEL rejections id` are issued and the (mutated) message is what
goes to the succeeded list. -/
def reprocessOneV2 (overrides : Option (List OverrideMsg)) (m : DLRecord) :
    ReprocessCmds :=
  let o := findOverride overrides m.id
  let channel := orElseJs m.channel (o.bind (fun x => x.channel))
  let group := orElseJs m.group (o.bind (fun x => x.group))
  let odata := o.bind (fun x => x.data)
  let newData := if jvTruthy odata then spreadData m.data (odata.getD .undef) else m.data
  let m' : DLRecord :=
    { id := m.id, action := m.action, data := newData, group := group, channel := channel }
  { repub := ⟨channel, "*",
              [slotOrUndefined m'.action, .jsonOf m'.data, .plain "group",
               slotOrUndefined group]⟩
    xdelStream := "rejections"
    xdelId := m.id
    republished := m' }

/-- Result of `reprocessRejectedMessages`: the issued commands, and the
succeeded and failed lists it returns. -/
structure ReprocessResult where
  cmds : List ReprocessCmds
  succeeded : List DLRecord
  failed : List (Option DLRecord × String)
deriving DecidableEq, Repr

/-- The loop of the second `reprocessRejectedMessages`, over the messages
array: an `undefined` element (absent id) throws on its first property
assignment inside the try, so it lands in the failed list; a real record
is reprocessed via `reprocessOneV2` (store calls modelled as
succeeding). -/
def reprocessLoopV2 (overrides : Option (List OverrideMsg))
    (msgs : List (Option DLRecord)) : ReprocessResult :=
  match msgs with
  | [] => ⟨[], [], []⟩
  | none :: rest =>
    let r := reprocessLoopV2 overrides rest
    ⟨r.cmds, r.succeeded, (none, "TypeError") :: r.failed⟩
  | some m :: rest =>
    let c := reprocessOneV2 overrides m
    let r := reprocessLoopV2 overrides rest
    ⟨c :: r.cmds, c.republished :: r.succeeded, r.failed⟩

/-- The second (later) `reprocessRejectedMessages`: destructures the
messages array out of `readRejectedMessages`' result and loops over it. -/
def reprocessRejectedMessagesV2 (conn : Bool) (store : List RawEntry)
    (overrides : Option (List OverrideMsg)) (args : ReadRejArgs) :
    Except JsErr ReprocessResult := do
  let rr ← readRejectedMessagesV2 conn store args
  .ok (reprocessLoopV2 overrides rr.messages)

/-- A JS value in `for...of` position: an array is iterable; a plain
object (such as the `messages`-and-`count` result object) has no
`Symbol.iterator`, so iterating it throws a TypeError. -/
inductive JsColl
  | arr (xs : List (Option DLRecord))
  | plainObj (rr : ReadRejResult)
deriving DecidableEq, Repr

def jsForOf : JsColl → Except JsErr (List (Option DLRecord))
  | .arr xs => .ok xs
  | .plainObj _ => .error .typeErrorNotIterable

/-- The first (earlier) `reprocessRejectedMessages`: derives ids from the
overrides when none are given, reads, then iterates the returned
`\x7bmessages, count\x7d` object itself with `for...of` — which throws a
TypeError before any record is reprocessed. -/
def reprocessRejectedMessagesV1 (conn : Bool) (store : List RawEntry)
    (overrides : Option (List OverrideMsg)) (args : ReadRejArgsV1) :
    Except JsErr ReprocessResult := do
  let ids' := match args.ids with
              | some l => some l
              | none => overrides.map (fun l => l.map (fun o => o.id))
  let rr ← readRejectedMessagesV1 conn store
    ⟨ids', args.fromMs, args.toMs, args.action, args.all⟩
  let msgs ← jsForOf (JsColl.plainObj rr)
  .ok (reprocessLoopV2 overrides msgs)

/-! ## Helper lemmas -/

theorem filterMessages_fst (g : String) (l : List ParsedMsg) :
    (filterMessages g l).1 = l.filter (shouldReceiveMessage g) := by
  induction l with
  | nil => rfl
  | cons m rest ih =>
    simp only [filterMessages, List.filter]
    cases h : shouldReceiveMessage g m <;> simp [h, ih]

theorem filterMessages_snd (g : String) (l : List ParsedMsg) :
    (filterMessages g l).2 = l.filter (fun m => !(shouldReceiveMessage g m)) := by
  induction l with
  | nil => rfl
  | cons m rest ih =>
    simp only [filterMessages, List.filter]
    cases h : shouldReceiveMessage g m <;> simp [h, ih]

theorem readBatch_receiveSet (g cid ch : String) (cb : ParsedMsg → CbOutcome)
    (entries : List RawEntry) :
    (readBatch g cid cb ch entries).receiveSet
      = (filterMessages g (parseMessages cid entries)).1 := by
  simp only [readBatch]
  split <;> rfl

theorem readBatch_skip_ack (g cid ch : String) (cb : ParsedMsg → CbOutcome)
    (entries : List RawEntry)
    (hnothrow :
      (processMessages ch (filterMessages g (parseMessages cid entries)).1 cb).thrown = none)
    (hskip : (filterMessages g (parseMessages cid entries)).2 ≠ []) :
    SubEvent.acked ch
        ((filterMessages g (parseMessages cid entries)).2.map (fun m => m.id)) "SKIPPED"
      ∈ (readBatch g cid cb ch entries).events := by
  have hpt : (if (filterMessages g (parseMessages cid entries)).1.isEmpty
      then (⟨[], none⟩ : ProcOutcome)
      else processMessages ch (filterMessages g (parseMessages cid entries)).1 cb).thrown
        = none := by
    split
    · rfl
    · exact hnothrow
  simp only [readBatch]
  split
  · rename_i heq
    rw [hpt] at heq
    exact absurd heq (by simp)
  · simp only [List.isEmpty_eq_true] at *
    rw [if_neg hskip]
    simp

theorem filterPendingMessages_fst (r : Nat) (l : List PendingEntry) :
    (filterPendingMessages r l).1
      = (l.filter (fun e => e.attempts ≤ r)).map (fun e => e.id) := by
  induction l with
  | nil => rfl
  | cons e rest ih =>
    by_cases h : e.attempts > r
    · have h' : ¬(e.attempts ≤ r) := Nat.not_le.mpr h
      simp [filterPendingMessages, List.filter, h, h', ih]
    · have h' : e.attempts ≤ r := Nat.not_lt.mp h
      simp [filterPendingMessages, List.filter, h, h', ih]

theorem filterPendingMessages_snd (r : Nat) (l : List PendingEntry) :
    (filterPendingMessages r l).2
      = (l.filter (fun e => r < e.attempts)).map (fun e => e.id) := by
  induction l with
  | nil => rfl
  | cons e rest ih =>
    by_cases h : e.attempts > r
    · simp [filterPendingMessages, List.filter, h, ih]
    · simp [filterPendingMessages, List.filter, h, ih]

theorem sweepOnce_retry (retries : Nat) (ch g cid dlId : String) (entry : RawEntry)
    (idleMs att c : Nat) (ack : Bool) (rej : List RawEntry) (h : att ≤ retries) :
    sweepOnce retries ch g cid dlId entry idleMs ⟨some att, ack, c, rej⟩
      = ⟨some (att + 1), ack, c + 1, rej⟩ := by
  have h' : ¬(att > retries) := Nat.not_lt.mpr h
  simp [sweepOnce, filterPendingMessages, h']

theorem sweepOnce_reject (retries : Nat) (ch g cid dlId : String) (entry : RawEntry)
    (idleMs att c : Nat) (ack : Bool) (rej : List RawEntry) (h : retries < att) :
    sweepOnce retries ch g cid dlId entry idleMs ⟨some att, ack, c, rej⟩
      = ⟨none, true, c,
         rej ++ [⟨dlId, [actionSlot (parseOneMessage cid entry),
                         .jsonOf (parseOneMessage cid entry).data,
                         .plain g, .plain ch]⟩]⟩ := by
  simp [sweepOnce, filterPendingMessages, h]

theorem runSweeps_none (retries : Nat) (ch g cid dlId : String) (entry : RawEntry)
    (idleMs : Nat) (k : Nat) (st : MsgTraceState) (h : st.attempts = none) :
    runSweeps retries ch g cid dlId entry idleMs k st = st := by
  induction k with
  | zero => rfl
  | succ k ih =>
    have hstep : sweepOnce retries ch g cid dlId entry idleMs st = st := by
      cases st with
      | mk a ack c rej => cases a with
        | none => rfl
        | some v => simp at h
    simp [runSweeps, hstep, ih]

theorem runSweeps_add (retries : Nat) (ch g cid dlId : String) (entry : RawEntry)
    (idleMs : Nat) (m n : Nat) (st : MsgTraceState) :
    runSweeps retries ch g cid dlId entry idleMs (m + n) st
      = runSweeps retries ch g cid dlId entry idleMs n
          (runSweeps retries ch g cid dlId entry idleMs m st) := by
  induction m generalizing st with
  | zero => simp [runSweeps]
  | succ m ih =>
    have hmn : m + 1 + n = (m + n) + 1 := by omega
    rw [hmn]
    show runSweeps retries ch g cid dlId entry idleMs (m + n)
        (sweepOnce retries ch g cid dlId entry idleMs st) = _
    rw [ih]
    rfl

theorem runSweeps_fail_trace (retries : Nat) (ch g cid dlId id : String)
    (a : JStr) (d : JVal) (idleMs : Nat) :
    ∀ rem c, rem ≤ retries →
      runSweeps retries ch g cid dlId ⟨id, [a, .jsonOf d]⟩ idleMs (rem + 1)
        ⟨some (retries + 1 - rem), false, c, []⟩
      = ⟨none, true, c + rem, [⟨dlId, [a, .jsonOf d, .plain g, .plain ch]⟩]⟩ := by
  have hact : actionSlot (parseOneMessage cid ⟨id, [a, .jsonOf d]⟩) = a := by
    simp [actionSlot, parseOneMessage, List.get?]
  have hdat : (parseOneMessage cid ⟨id, [a, .jsonOf d]⟩).data = d := by
    simp [parseOneMessage, List.get?, jsonParse]
  intro rem
  induction rem with
  | zero =>
    intro c _
    show runSweeps retries ch g cid dlId ⟨id, [a, .jsonOf d]⟩ idleMs 0
        (sweepOnce retries ch g cid dlId ⟨id, [a, .jsonOf d]⟩ idleMs
          ⟨some (retries + 1 - 0), false, c, []⟩) = _
    rw [Nat.sub_zero,
        sweepOnce_reject retries ch g cid dlId ⟨id, [a, .jsonOf d]⟩ idleMs (retries + 1) c
          false [] (Nat.lt_succ_self retries)]
    simp [runSweeps, hact, hdat]
  | succ rem ih =>
    intro c h
    have hle : retries + 1 - (rem + 1) ≤ retries := by omega
    show runSweeps retries ch g cid dlId ⟨id, [a, .jsonOf d]⟩ idleMs (rem + 1)
        (sweepOnce retries ch g cid dlId ⟨id, [a, .jsonOf d]⟩ idleMs
          ⟨some (retries + 1 - (rem + 1)), false, c, []⟩) = _
    rw [sweepOnce_retry retries ch g cid dlId ⟨id, [a, .jsonOf d]⟩ idleMs
        (retries + 1 - (rem + 1)) c false [] hle]
    have heq : retries + 1 - (rem + 1) + 1 = retries + 1 - rem := by omega
    rw [heq, ih (c + 1) (by omega)]
    have : c + 1 + rem = c + (rem + 1) := by omega
    rw [this]

/-! ## Claim theorems -/

/-- C1 (code bug): the claim says a failing callback — a rejected promise
or a synchronous throw — never aborts sibling messages of the batch nor
halts the read/dispatch cycle, and that the error reaches the error
callback together with the channel and the message.  The code honours
this only for rejected promises.  This theorem evaluates the engine at
the failing input: a batch of two messages whose callback throws
synchronously on the first one.  The second message is never received,
the error callback gets only the error (no channel, no message), and the
continual-read cycle halts; the contrast conjunct shows the same batch
with a rejected promise instead, where isolation does hold. -/
theorem C1_sync_throw_escapes_batch_and_halts_cycle :
    (continualReadCycle "g" "cid"
        (fun m => if m.id = "1-0" then .throwsSync "boom" else .resolves)
        [("c", [⟨"1-0", [.plain "a", .jsonOf (.obj [("foo", "bar")])]⟩,
                ⟨"2-0", [.plain "a", .jsonOf (.obj [("foo", "bar")])]⟩])]
      = ⟨[.received "c" ⟨"1-0", some (.plain "a"), .obj [("foo", "bar")], some 1, "cid", none⟩,
          .errorCb "boom" none none], true⟩)
  ∧ (continualReadCycle "g" "cid"
        (fun m => if m.id = "1-0" then .rejectsWith "boom" else .resolves)
        [("c", [⟨"1-0", [.plain "a", .jsonOf (.obj [("foo", "bar")])]⟩,
                ⟨"2-0", [.plain "a", .jsonOf (.obj [("foo", "bar")])]⟩])]
      = ⟨[.received "c" ⟨"1-0", some (.plain "a"), .obj [("foo", "bar")], some 1, "cid", none⟩,
          .errorCb "boom" (some "c")
            (some ⟨"1-0", some (.plain "a"), .obj [("foo", "bar")], some 1, "cid", none⟩),
          .received "c" ⟨"2-0", some (.plain "a"), .obj [("foo", "bar")], some 2, "cid", none⟩,
          .acked "c" ["2-0"] "CONFIRMED"], false⟩) := by
  constructor <;> decide

/-- C2 counterexample: an entry whose flattened field-values carry the
engine's own group name in the groupOverride position (index 2) of the
claimed layout, and a different string in the channelOverride position
(index 3).  Per the claim the entry must be dispatched (its group tag
equals the engine's group); the code reads the tag from index 3,
so it never dispatches the entry and acknowledges it SKIPPED. -/
theorem C2_counterexample :
    (readBatch "g" "cid" (fun _ => .resolves) "c"
        [⟨"5-0", [.plain "a", .jsonOf (.obj [("foo", "bar")]), .plain "g", .plain "c"]⟩]).receiveSet
      = []
  ∧ (readBatch "g" "cid" (fun _ => .resolves) "c"
        [⟨"5-0", [.plain "a", .jsonOf (.obj [("foo", "bar")]), .plain "g", .plain "c"]⟩]).events
      = [.acked "c" ["5-0"] "SKIPPED"] := by
  constructor <;> decide

/-- C2 amended: the engine reads the group tag from position 3 of the
flattened field-value list (the channelOverride slot of the claimed
layout), not from position 2; an entry whose position-3 value is falsy
or equal to the engine's group is dispatched for processing, and the
others are never dispatched and are acknowledged with status SKIPPED
(as long as no dispatched callback throws synchronously). -/
theorem C2_amended_group_tag_position (g cid ch : String) (entries : List RawEntry)
    (cb : ParsedMsg → CbOutcome)
    (hnothrow :
      (processMessages ch (filterMessages g (parseMessages cid entries)).1 cb).thrown = none) :
    (∀ e ∈ entries, (parseOneMessage cid e).group = e.values.get? 3)
  ∧ (readBatch g cid cb ch entries).receiveSet
      = (parseMessages cid entries).filter (shouldReceiveMessage g)
  ∧ (∀ m, shouldReceiveMessage g m
        = (!(jsTruthyStr m.group) || m.group = some (JStr.plain g)))
  ∧ ((filterMessages g (parseMessages cid entries)).2 ≠ [] →
      SubEvent.acked ch
          ((filterMessages g (parseMessages cid entries)).2.map (fun m => m.id)) "SKIPPED"
        ∈ (readBatch g cid cb ch entries).events) := by
  refine ⟨fun e _ => rfl, ?_, fun m => rfl, fun hskip => readBatch_skip_ack g cid ch cb entries hnothrow hskip⟩
  rw [readBatch_receiveSet, filterMessages_fst]

/-- Witness for C2's amended theorem at a concrete input: one entry to be
skipped (foreign tag at position 3) and one to be dispatched (no tag),
with a resolving callback. -/
theorem C2_amended_group_tag_position_witness :
    (∀ e ∈ [(⟨"5-0", [.plain "a", .jsonOf (.obj [("foo", "bar")]), .plain "g", .plain "c"]⟩ : RawEntry),
            ⟨"6-0", [.plain "b", .jsonOf (.obj [("x", "y")])]⟩],
        (parseOneMessage "cid" e).group = e.values.get? 3)
  ∧ (readBatch "g" "cid" (fun _ => .resolves) "c"
        [⟨"5-0", [.plain "a", .jsonOf (.obj [("foo", "bar")]), .plain "g", .plain "c"]⟩,
         ⟨"6-0", [.plain "b", .jsonOf (.obj [("x", "y")])]⟩]).receiveSet
      = (parseMessages "cid"
          [⟨"5-0", [.plain "a", .jsonOf (.obj [("foo", "bar")]), .plain "g", .plain "c"]⟩,
           ⟨"6-0", [.plain "b", .jsonOf (.obj [("x", "y")])]⟩]).filter (shouldReceiveMessage "g")
  ∧ (∀ m, shouldReceiveMessage "g" m
        = (!(jsTruthyStr m.group) || m.group = some (JStr.plain "g")))
  ∧ ((filterMessages "g" (parseMessages "cid"
          [⟨"5-0", [.plain "a", .jsonOf (.obj [("foo", "bar")]), .plain "g", .plain "c"]⟩,
           ⟨"6-0", [.plain "b", .jsonOf (.obj [("x", "y")])]⟩])).2 ≠ [] →
      SubEvent.acked "c"
          ((filterMessages "g" (parseMessages "cid"
              [⟨"5-0", [.plain "a", .jsonOf (.obj [("foo", "bar")]), .plain "g", .plain "c"]⟩,
               ⟨"6-0", [.plain "b", .jsonOf (.obj [("x", "y")])]⟩])).2.map (fun m => m.id)) "SKIPPED"
        ∈ (readBatch "g" "cid" (fun _ => .resolves) "c"
            [⟨"5-0", [.plain "a", .jsonOf (.obj [("foo", "bar")]), .plain "g", .plain "c"]⟩,
             ⟨"6-0", [.plain "b", .jsonOf (.obj [("x", "y")])]⟩]).events) :=
  C2_amended_group_tag_position "g" "cid" "c"
    [⟨"5-0", [.plain "a", .jsonOf (.obj [("foo", "bar")]), .plain "g", .plain "c"]⟩,
     ⟨"6-0", [.plain "b", .jsonOf (.obj [("x", "y")])]⟩]
    (fun _ => .resolves) (by decide)

/-- C3: every pending sweep partitions the pending entries by attempt
count — attempts up to the retry limit go to the receive (reclaim and
re-dispatch) side, attempts above it to the reject side — and a message
whose callback always fails, starting from its first failed delivery, is
re-dispatched via reclaim exactly `retries` times over the sweeps; on
the following sweep it is acknowledged, leaves the pending entry list,
and is appended exactly once to the `rejections` dead-letter stream with
its original action and serialized data plus the engine's group and the
origin channel — and any number of further sweeps change nothing. -/
theorem C3_retry_partition_and_dead_letter (retries : Nat) (l : List PendingEntry)
    (ch g cid dlId id : String) (a : JStr) (d : JVal) (idleMs k : Nat) :
    (filterPendingMessages retries l).1
        = (l.filter (fun e => e.attempts ≤ retries)).map (fun e => e.id)
  ∧ (filterPendingMessages retries l).2
        = (l.filter (fun e => retries < e.attempts)).map (fun e => e.id)
  ∧ runSweeps retries ch g cid dlId ⟨id, [a, .jsonOf d]⟩ idleMs (retries + 1 + k)
        initialFailedState
      = ⟨none, true, retries, [⟨dlId, [a, .jsonOf d, .plain g, .plain ch]⟩]⟩ := by
  refine ⟨filterPendingMessages_fst retries l, filterPendingMessages_snd retries l, ?_⟩
  rw [runSweeps_add]
  have h1 : initialFailedState
      = (⟨some (retries + 1 - retries), false, 0, []⟩ : MsgTraceState) := by
    simp [initialFailedState]
  rw [h1, runSweeps_fail_trace retries ch g cid dlId id a d idleMs retries 0 (Nat.le_refl retries)]
  rw [runSweeps_none retries ch g cid dlId ⟨id, [a, .jsonOf d]⟩ idleMs k _ rfl]
  simp

/-- C4 counterexample: a dead-letter record that carries its own channel
and group (as every record the rejection path writes does), reprocessed
with an override supplying a different channel and group.  The claim
says the override determines the destination; the code keeps the
record's own channel and group (`message.channel || newMessage?.channel`),
so the republish goes to the original destination. -/
theorem C4_counterexample :
    (reprocessOneV2
        (some [⟨"1-1", some (.plain "c2"), some (.plain "g2"), some (.obj [("b", "2")])⟩])
        ⟨"1-1", some (.plain "a"), .obj [("a", "1")], some (.plain "g"),
         some (.plain "c")⟩).repub.stream
      = some (.plain "c")
  ∧ (reprocessOneV2
        (some [⟨"1-1", some (.plain "c2"), some (.plain "g2"), some (.obj [("b", "2")])⟩])
        ⟨"1-1", some (.plain "a"), .obj [("a", "1")], some (.plain "g"),
         some (.plain "c")⟩).repub.values.get? 3
      = some (.plain "g")
  ∧ JStr.plain "c" ≠ JStr.plain "c2"
  ∧ JStr.plain "g" ≠ JStr.plain "g2" := by
  refine ⟨?_, ?_, ?_, ?_⟩ <;> decide

theorem objLookup_append (xs ys : List (String × String)) (k : String) :
    objLookup (xs ++ ys) k
      = match objLookup xs k with
        | some v => some v
        | none => objLookup ys k := by
  induction xs with
  | nil => simp [objLookup]
  | cons kv rest ih =>
    by_cases h : kv.1 = k
    · simp [objLookup, h]
    · simp [objLookup, h, ih]

theorem objLookup_map_override (a b : List (String × String)) (k : String) :
    objLookup (a.map (fun kv => (kv.1, (objLookup b kv.1).getD kv.2))) k
      = (objLookup a k).map (fun v => (objLookup b k).getD v) := by
  induction a with
  | nil => simp [objLookup]
  | cons kv rest ih =>
    by_cases h : kv.1 = k
    · simp [objLookup, h]
    · simp [objLookup, h, ih]

theorem objLookup_filter_not_has (a b : List (String × String)) (k : String) :
    objLookup (b.filter (fun kv => !(objHas a kv.1))) k
      = if objHas a k then none else objLookup b k := by
  induction b with
  | nil => simp [objLookup]
  | cons kv rest ih =>
    by_cases hb : objHas a kv.1
    · by_cases h : kv.1 = k
      · have hb' : objHas a k := h ▸ hb
        simp [List.filter, hb, hb', ih, objLookup]
      · simp [List.filter, hb, ih, objLookup, h]
    · by_cases h : kv.1 = k
      · have hb' : ¬(objHas a k = true) := fun hc => hb (h ▸ hc)
        simp [List.filter, hb, h, hb', objLookup]
      · simp [List.filter, hb, objLookup, h, ih]

theorem objLookup_spreadMerge (a b : List (String × String)) (k : String) :
    objLookup (spreadMerge a b) k
      = match objLookup b k with
        | some v => some v
        | none => objLookup a k := by
  rw [spreadMerge, objLookup_append, objLookup_map_override, objLookup_filter_not_has]
  cases ha : objLookup a k <;> cases hb : objLookup b k <;>
    simp [objHas, ha, hb]

/-- C4 amended: in `reprocess`, an override's channel and group are used
only as fallbacks — the record's own channel and group win whenever they
are present (truthy), which they always are for records written by the
rejection path; only the data override behaves as claimed: a truthy data
override is shallow-merged over the original data with the override
winning on shared keys; the original dead-letter record is then deleted
(`XDEL rejections id`). -/
theorem C4_amended (m : DLRecord) (o : OverrideMsg) (hid : o.id = m.id)
    (fa fb : List (String × String)) (hda : m.data = .obj fa)
    (hdb : o.data = some (.obj fb)) :
    (reprocessOneV2 (some [o]) m).repub.stream
        = (if jsTruthyStr m.channel then m.channel else o.channel)
  ∧ (reprocessOneV2 (some [o]) m).repub.values.get? 3
        = some (slotOrUndefined (if jsTruthyStr m.group then m.group else o.group))
  ∧ (reprocessOneV2 (some [o]) m).republished.data = .obj (spreadMerge fa fb)
  ∧ (∀ k, objLookup (spreadMerge fa fb) k
        = match objLookup fb k with
          | some v => some v
          | none => objLookup fa k)
  ∧ (reprocessOneV2 (some [o]) m).xdelStream = "rejections"
  ∧ (reprocessOneV2 (some [o]) m).xdelId = m.id := by
  have hfind : findOverride (some [o]) m.id = some o := by
    simp [findOverride, List.find?, hid]
  refine ⟨?_, ?_, ?_, fun k => objLookup_spreadMerge fa fb k, ?_, ?_⟩ <;>
    simp [reprocessOneV2, hfind, orElseJs, hda, hdb, jvTruthy, spreadData,
      objFields, slotOrUndefined, List.get?]

/-- Witness for C4's amended theorem at a concrete record and override. -/
theorem C4_amended_witness :
    (reprocessOneV2
        (some [⟨"1-1", some (.plain "c2"), some (.plain "g2"), some (.obj [("a", "9"), ("b", "2")])⟩])
        ⟨"1-1", some (.plain "a"), .obj [("a", "1")], some (.plain "g"),
         some (.plain "c")⟩).repub.stream
        = (if jsTruthyStr (some (.plain "c")) then some (.plain "c") else some (.plain "c2"))
  ∧ (reprocessOneV2
        (some [⟨"1-1", some (.plain "c2"), some (.plain "g2"), some (.obj [("a", "9"), ("b", "2")])⟩])
        ⟨"1-1", some (.plain "a"), .obj [("a", "1")], some (.plain "g"),
         some (.plain "c")⟩).repub.values.get? 3
        = some (slotOrUndefined
            (if jsTruthyStr (some (.plain "g")) then some (.plain "g") else some (.plain "g2")))
  ∧ (reprocessOneV2
        (some [⟨"1-1", some (.plain "c2"), some (.plain "g2"), some (.obj [("a", "9"), ("b", "2")])⟩])
        ⟨"1-1", some (.plain "a"), .obj [("a", "1")], some (.plain "g"),
         some (.plain "c")⟩).republished.data
        = .obj (spreadMerge [("a", "1")] [("a", "9"), ("b", "2")])
  ∧ (∀ k, objLookup (spreadMerge [("a", "1")] [("a", "9"), ("b", "2")]) k
        = match objLookup [("a", "9"), ("b", "2")] k with
          | some v => some v
          | none => objLookup [("a", "1")] k)
  ∧ (reprocessOneV2
        (some [⟨"1-1", some (.plain "c2"), some (.plain "g2"), some (.obj [("a", "9"), ("b", "2")])⟩])
        ⟨"1-1", some (.plain "a"), .obj [("a", "1")], some (.plain "g"),
         some (.plain "c")⟩).xdelStream = "rejections"
  ∧ (reprocessOneV2
        (some [⟨"1-1", some (.plain "c2"), some (.plain "g2"), some (.obj [("a", "9"), ("b", "2")])⟩])
        ⟨"1-1", some (.plain "a"), .obj [("a", "1")], some (.plain "g"),
         some (.plain "c")⟩).xdelId = "1-1" :=
  C4_amended
    ⟨"1-1", some (.plain "a"), .obj [("a", "1")], some (.plain "g"), some (.plain "c")⟩
    ⟨"1-1", some (.plain "c2"), some (.plain "g2"), some (.obj [("a", "9"), ("b", "2")])⟩
    rfl [("a", "1")] [("a", "9"), ("b", "2")] rfl rfl

/-- C5 counterexample: the claim says construction fails on an empty
channels list and that a bad callback arity raises a TypeError-class
error.  The code's `!channels` check lets a present-but-empty array
through (construction succeeds), and the arity check throws a plain
Error, a different kind than the TypeError used for non-functions. -/
theorem C5_counterexample :
    subscriberValidate (some []) (some "g") (.func 1) = .ok ()
  ∧ subscriberValidate (some ["c"]) (some "g") (.func 4) = .error .arityError
  ∧ CtorErr.arityError ≠ CtorErr.typeErrNotFunction := by
  exact ⟨rfl, rfl, by decide⟩

theorem createGroup_ok (resps : List GroupResp)
    (hr : ∀ r ∈ resps, r = GroupResp.created ∨ r = GroupResp.busygroup) :
    createGroup true resps = .ok () := by
  induction resps with
  | nil => rfl
  | cons r rest ih =>
    have hrest : ∀ x ∈ rest, x = GroupResp.created ∨ x = GroupResp.busygroup :=
      fun x hx => hr x (List.mem_cons_of_mem r hx)
    rcases hr r (List.mem_cons_self r rest) with h | h <;>
      · rw [h]
        exact ih hrest

/-- C5 amended: construction fails with a MISSED_VALUE Error when the
channels argument is absent (a present channels array, even empty, is
accepted) or when the group name is absent or empty; a truthy
non-function callback raises a TypeError; a function callback whose
declared arity is outside 1..3 raises a plain Error (not a TypeError);
any other configuration validates, and group creation succeeds on every
channel when each store reply is either a fresh creation or the
BUSYGROUP "already exists" reply, which is treated as success. -/
theorem C5_amended (chs : List String) (g : String) (n : Nat) (cb : CbModel)
    (resps : List GroupResp)
    (hg : g.isEmpty = false) (hn : 1 ≤ n ∧ n ≤ 3)
    (hr : ∀ r ∈ resps, r = GroupResp.created ∨ r = GroupResp.busygroup) :
    subscriberValidate none (some g) cb = .error .missedValue
  ∧ subscriberValidate (some chs) none cb = .error .missedValue
  ∧ subscriberValidate (some chs) (some "") cb = .error .missedValue
  ∧ subscriberValidate (some chs) (some g) .truthyNonFunc = .error .typeErrNotFunction
  ∧ (∀ a, a < 1 ∨ 3 < a →
        subscriberValidate (some chs) (some g) (.func a) = .error .arityError)
  ∧ subscriberValidate (some chs) (some g) (.func n) = .ok ()
  ∧ createGroup true resps = .ok () := by
  have hgt : strTruthy (some g) = true := by
    simp [strTruthy, hg]
  refine ⟨rfl, rfl, rfl, ?_, ?_, ?_, createGroup_ok resps hr⟩
  · simp [subscriberValidate, hgt]
  · intro a ha
    simp [subscriberValidate, hgt]
    omega
  · simp [subscriberValidate, hgt]
    omega

/-- Witness for C5's amended theorem: group "g", two channels, a
three-argument callback, and one created plus one already-existing
group reply. -/
theorem C5_amended_witness :
    subscriberValidate none (some "g") (.func 3) = .error .missedValue
  ∧ subscriberValidate (some ["c1", "c2"]) none (.func 3) = .error .missedValue
  ∧ subscriberValidate (some ["c1", "c2"]) (some "") (.func 3) = .error .missedValue
  ∧ subscriberValidate (some ["c1", "c2"]) (some "g") .truthyNonFunc
      = .error .typeErrNotFunction
  ∧ (∀ a, a < 1 ∨ 3 < a →
        subscriberValidate (some ["c1", "c2"]) (some "g") (.func a) = .error .arityError)
  ∧ subscriberValidate (some ["c1", "c2"]) (some "g") (.func 3) = .ok ()
  ∧ createGroup true [GroupResp.created, GroupResp.busygroup] = .ok () :=
  C5_amended ["c1", "c2"] "g" 3 (.func 3) [GroupResp.created, GroupResp.busygroup]
    (by decide) (by omega) (by decide)

/-- C7: `publish(action, data)` fails with a REDIS_CONNECTION error when
no store connection exists; otherwise it issues an XADD on the
publisher's single configured channel, serializing the data, with the
approximate trim policy `MAXLEN ~ maxLength` and a store-assigned id,
and returns the store-assigned id; the publisher constructor defaults
the retention cap to 5000. -/
theorem C7_publish_connection_trim_id (cfg : PublisherCfg) (action : String)
    (data : JVal) (storeId : String) :
    publish false cfg action data storeId = .error "REDIS_CONNECTION"
  ∧ (∃ cmd, publish true cfg action data storeId = .ok (cmd, storeId)
       ∧ cmd.stream = cfg.channel
       ∧ cmd.trim = some (.maxlenApprox cfg.maxLength)
       ∧ cmd.entryId = "*"
       ∧ cmd.values = [.plain action, .jsonOf data])
  ∧ publisherCtor (some "c") = .ok ⟨"c", 5000⟩ := by
  refine ⟨rfl, ⟨⟨cfg.channel, some (.maxlenApprox cfg.maxLength), "*",
    [.plain action, .jsonOf data]⟩, rfl, rfl, rfl, rfl, rfl⟩, rfl⟩

/-- C8: `unsubscribe` with drain delay `t` (defaulting to 60000 ms)
clears the continue flag and the periodic timer immediately, performs
every DELCONSUMER removal only after the wait of the full drain delay
(the wait event precedes every removal, and no removal occurs before
it), covers exactly the configured channels, and returns the channel
list with the "OK" marker. -/
theorem C8_unsubscribe_drain_then_delete (channels : List String) (g cid : String)
    (st : SubRunState) (t : Nat) :
    (unsubscribe channels g cid st t).1.continueReading = false
  ∧ (unsubscribe channels g cid st t).1.timerActive = false
  ∧ (unsubscribe channels g cid st t).2.2 = ⟨channels, "OK"⟩
  ∧ (∃ pre, (unsubscribe channels g cid st t).2.1
        = pre ++ UEvent.wait t :: channels.map (fun ch => UEvent.delConsumer ch g cid)
      ∧ UEvent.stopReadingFlag ∈ pre
      ∧ (∀ ch gr ci, UEvent.delConsumer ch gr ci ∉ pre))
  ∧ (unsubscribe channels g cid st).2.1 = (unsubscribe channels g cid st 60000).2.1 := by
  refine ⟨rfl, rfl, rfl, ?_, rfl⟩
  refine ⟨[UEvent.stopReadingFlag] ++ (if st.timerActive then [UEvent.clearTimer] else []),
    ?_, ?_, ?_⟩
  · simp [unsubscribe]
  · simp
  · intro ch gr ci
    cases h : st.timerActive <;> simp [h]

theorem rmbGetMap {α β : Type} (f : α → β) :
    ∀ (l : List α) (k : Nat), (l.map f).get? k = (l.get? k).map f := by
  intro l
  induction l with
  | nil => intro k; cases k <;> rfl
  | cons x rest ih =>
    intro k
    cases k with
    | zero => rfl
    | succ k => exact ih k

theorem rmbHeadMap {α β : Type} (f : α → β) (l : List α) :
    (l.map f).head? = (l.head?).map f := by
  cases l <;> rfl

theorem rmbMemOfGet {α : Type} :
    ∀ (l : List α) (k : Nat) (a : α), l.get? k = some a → a ∈ l := by
  intro l
  induction l with
  | nil => intro k a h; simp [List.get?] at h
  | cons x rest ih =>
    intro k a h
    cases k with
    | zero =>
      simp [List.get?] at h
      simp [h]
    | succ k => exact List.mem_cons_of_mem x (ih k a h)

theorem wfEntry_parse (e : RawEntry) (h : wfEntry e = true) :
    parseDLRecord e = .ok (parseDLTotal e) := by
  unfold wfEntry at h
  unfold parseDLRecord parseDLTotal
  cases hv : e.values.get? 1 with
  | none =>
    rw [hv] at h
    simp at h
  | some v =>
    rw [hv] at h
    cases v with
    | plain s => simp at h
    | jsonOf j => rfl

theorem mapParseDL_of_wf :
    ∀ (l : List RawEntry), dlWellFormed l = true →
      mapParseDL l = .ok (l.map parseDLTotal) := by
  intro l
  induction l with
  | nil => intro _; rfl
  | cons e rest ih =>
    intro h
    have hc : (wfEntry e && dlWellFormed rest) = true := by
      simpa [dlWellFormed] using h
    obtain ⟨h1, h2⟩ := Bool.and_eq_true_iff.mp hc
    simp [mapParseDL, wfEntry_parse e h1, ih h2, Bind.bind, Except.bind]

theorem dlWellFormed_filter (p : RawEntry → Bool) (l : List RawEntry)
    (h : dlWellFormed l = true) : dlWellFormed (l.filter p) = true := by
  simp only [dlWellFormed, List.all_eq_true] at *
  intro e he
  exact h e (List.mem_of_mem_filter he)

theorem readByIds_of_wf (store : List RawEntry) (h : dlWellFormed store = true) :
    ∀ ids, readByIds store ids = .ok (ids.map (dlLookup store)) := by
  intro ids
  induction ids with
  | nil => rfl
  | cons i rest ih =>
    have hw : dlWellFormed (xrangeById store i) = true :=
      dlWellFormed_filter (fun e => e.id = i) store h
    have hm := mapParseDL_of_wf (xrangeById store i) hw
    simp [readByIds, hm, ih, dlLookup, rmbHeadMap, Bind.bind, Except.bind]

theorem readAllV2_of_wf (store : List RawEntry) (h : dlWellFormed store = true) :
    readRejectedMessagesV2 true store ⟨none, none, none, none⟩
      = .ok ⟨(store.map parseDLTotal).map some, store.length⟩ := by
  simp [readRejectedMessagesV2, mapParseDL_of_wf store h, applyActionFilter,
    Bind.bind, Except.bind, Pure.pure, Except.pure, List.map_map,
    List.length_map, Function.comp]

theorem reprocessLoop_mem (ov : Option (List OverrideMsg)) :
    ∀ (msgs : List (Option DLRecord)) (m : DLRecord), some m ∈ msgs →
      reprocessOneV2 ov m ∈ (reprocessLoopV2 ov msgs).cmds
      ∧ (reprocessOneV2 ov m).republished ∈ (reprocessLoopV2 ov msgs).succeeded := by
  intro msgs
  induction msgs with
  | nil => intro m h; simp at h
  | cons x rest ih =>
    intro m h
    cases x with
    | none =>
      have hr : some m ∈ rest := by
        rcases List.mem_cons.mp h with h1 | h2
        · exact absurd h1 (by simp)
        · exact h2
      obtain ⟨hc, hs⟩ := ih m hr
      exact ⟨hc, hs⟩
    | some m' =>
      rcases List.mem_cons.mp h with h1 | h2
      · have hmm : m' = m := by injection h1.symm
        subst hmm
        exact ⟨List.mem_cons_self _ _, List.mem_cons_self _ _⟩
      · obtain ⟨hc, hs⟩ := ih m h2
        exact ⟨List.mem_cons_of_mem _ hc, List.mem_cons_of_mem _ hs⟩

theorem reprocessOneV2_no_override (m : DLRecord)
    (hch : jsTruthyStr m.channel = true) (hgr : jsTruthyStr m.group = true) :
    reprocessOneV2 none m
      = ⟨⟨m.channel, "*",
          [slotOrUndefined m.action, .jsonOf m.data, .plain "group",
           slotOrUndefined m.group]⟩,
         "rejections", m.id, m⟩ := by
  cases m with
  | mk id action data group channel =>
    simp only [reprocessOneV2, findOverride, Option.bind, orElseJs, jvTruthy] at *
    simp [hch, hgr]

/-- C6: reprocess with no overrides and no filter, applied to a
well-formed dead-letter stream, republishes each record to its recorded
channel, tagged (via the trailing "group" field pair) with its recorded
group, with action and data identical to the record's; it deletes the
record from the `rejections` stream (`XDEL rejections id`) and the
record appears in the returned succeeded list. -/
theorem C6_reprocess_roundtrip (store : List RawEntry) (m : DLRecord)
    (hwf : dlWellFormed store = true)
    (hm : m ∈ store.map parseDLTotal)
    (hch : jsTruthyStr m.channel = true) (hgr : jsTruthyStr m.group = true) :
    ∃ r, reprocessRejectedMessagesV2 true store none ⟨none, none, none, none⟩ = .ok r
      ∧ (⟨⟨m.channel, "*",
            [slotOrUndefined m.action, .jsonOf m.data, .plain "group",
             slotOrUndefined m.group]⟩,
          "rejections", m.id, m⟩ : ReprocessCmds) ∈ r.cmds
      ∧ m ∈ r.succeeded := by
  have hread := readAllV2_of_wf store hwf
  have hmem : some m ∈ (store.map parseDLTotal).map some :=
    List.mem_map_of_mem some hm
  obtain ⟨hc, hs⟩ := reprocessLoop_mem none ((store.map parseDLTotal).map some) m hmem
  rw [reprocessOneV2_no_override m hch hgr] at hc hs
  refine ⟨reprocessLoopV2 none ((store.map parseDLTotal).map some), ?_, hc, ?_⟩
  · simp [reprocessRejectedMessagesV2, hread, Bind.bind, Except.bind]
  · simpa using hs

/-- Witness for C6 at a one-record dead-letter stream. -/
theorem C6_reprocess_roundtrip_witness :
    ∃ r, reprocessRejectedMessagesV2 true
          [⟨"1-1", [.plain "a", .jsonOf (.obj [("foo", "bar")]), .plain "g", .plain "c"]⟩]
          none ⟨none, none, none, none⟩ = .ok r
      ∧ (⟨⟨some (.plain "c"), "*",
            [slotOrUndefined (some (.plain "a")), .jsonOf (.obj [("foo", "bar")]),
             .plain "group", slotOrUndefined (some (.plain "g"))]⟩,
          "rejections", "1-1",
          ⟨"1-1", some (.plain "a"), .obj [("foo", "bar")], some (.plain "g"),
           some (.plain "c")⟩⟩ : ReprocessCmds) ∈ r.cmds
      ∧ (⟨"1-1", some (.plain "a"), .obj [("foo", "bar")], some (.plain "g"),
          some (.plain "c")⟩ : DLRecord) ∈ r.succeeded :=
  C6_reprocess_roundtrip
    [⟨"1-1", [.plain "a", .jsonOf (.obj [("foo", "bar")]), .plain "g", .plain "c"]⟩]
    ⟨"1-1", some (.plain "a"), .obj [("foo", "bar")], some (.plain "g"), some (.plain "c")⟩
    (by decide) (by decide) (by decide) (by decide)

theorem readV1_ok_cases (store : List RawEntry) (hwf : dlWellFormed store = true)
    (idsArg : Option (List String)) :
    ∃ rr, readRejectedMessagesV1 true store ⟨idsArg, none, none, none, true⟩ = .ok rr := by
  cases idsArg with
  | none =>
    refine ⟨⟨(store.map parseDLTotal).map some, ((store.map parseDLTotal).map some).length⟩, ?_⟩
    simp [readRejectedMessagesV1, mapParseDL_of_wf store hwf, applyActionFilter,
      Bind.bind, Except.bind, Pure.pure, Except.pure, List.map_map, Function.comp]
  | some l =>
    by_cases hl : l.isEmpty
    · refine ⟨⟨(store.map parseDLTotal).map some, ((store.map parseDLTotal).map some).length⟩, ?_⟩
      simp [readRejectedMessagesV1, hl, mapParseDL_of_wf store hwf,
        applyActionFilter, Bind.bind, Except.bind, Pure.pure, Except.pure,
        List.map_map, Function.comp]
    · refine ⟨⟨l.map (dlLookup store), (l.map (dlLookup store)).length⟩, ?_⟩
      simp [readRejectedMessagesV1, hl, readByIds_of_wf store hwf l,
        applyActionFilter, Bind.bind, Except.bind, Pure.pure, Except.pure]

/-- C9: the earlier of the two `reprocessRejectedMessages`
implementations, run with a store connection (on any well-formed
dead-letter stream, with or without caller overrides), throws a
TypeError before reprocessing any record — it iterates the
messages-and-count result object of `readRejectedMessages`, which is
not iterable — and so never returns a succeeded/failed result; the
later implementation destructures the messages array and returns
normally on the same store. -/
theorem C9_first_version_never_returns (store : List RawEntry)
    (ov : Option (List OverrideMsg)) (hwf : dlWellFormed store = true) :
    reprocessRejectedMessagesV1 true store ov ⟨none, none, none, none, true⟩
        = .error .typeErrorNotIterable
  ∧ ∃ r, reprocessRejectedMessagesV2 true store none ⟨none, none, none, none⟩
        = .ok r := by
  constructor
  · obtain ⟨rr, hrr⟩ :=
      readV1_ok_cases store hwf (ov.map (fun l => l.map (fun o => o.id)))
    simp [reprocessRejectedMessagesV1, hrr, jsForOf, Bind.bind, Except.bind]
  · refine ⟨reprocessLoopV2 none ((store.map parseDLTotal).map some), ?_⟩
    simp [reprocessRejectedMessagesV2, readAllV2_of_wf store hwf,
      Bind.bind, Except.bind, List.map_map, Function.comp]

/-- Witness for C9 at a one-record dead-letter stream, no overrides. -/
theorem C9_first_version_never_returns_witness :
    reprocessRejectedMessagesV1 true
        [⟨"1-1", [.plain "a", .jsonOf (.obj [("foo", "bar")]), .plain "g", .plain "c"]⟩]
        none ⟨none, none, none, none, true⟩
      = .error .typeErrorNotIterable
  ∧ ∃ r, reprocessRejectedMessagesV2 true
        [⟨"1-1", [.plain "a", .jsonOf (.obj [("foo", "bar")]), .plain "g", .plain "c"]⟩]
        none ⟨none, none, none, none⟩ = .ok r :=
  C9_first_version_never_returns
    [⟨"1-1", [.plain "a", .jsonOf (.obj [("foo", "bar")]), .plain "g", .plain "c"]⟩]
    none (by decide)

theorem applyActionFilter_err (a : JStr) :
    ∀ (msgs : List (Option DLRecord)), none ∈ msgs →
      applyActionFilter (some a) msgs = .error .typeErrorUndefinedField := by
  intro msgs
  induction msgs with
  | nil => intro h; simp at h
  | cons x rest ih =>
    intro h
    cases x with
    | none => rfl
    | some r =>
      have hr : none ∈ rest := by
        rcases List.mem_cons.mp h with h1 | h2
        · exact absurd h1 (by simp)
        · exact h2
      simp [applyActionFilter, ih hr, Bind.bind, Except.bind]

/-- C10: calling the later `readRejectedMessages` with an ids list in
which position `k` holds an id absent from the dead-letter stream, and
no action filter, returns an array holding `undefined` at position `k`,
and the returned count counts it (count equals the full length of the
ids list, which can exceed the number of existing records); with an
action filter additionally supplied, the call throws a TypeError instead
of returning. -/
theorem C10_absent_id_undefined_and_throw (store : List RawEntry)
    (ids : List String) (k : Nat) (i : String) (a : JStr)
    (hwf : dlWellFormed store = true)
    (hk : ids.get? k = some i)
    (habsent : xrangeById store i = []) :
    readRejectedMessagesV2 true store ⟨some ids, none, none, none⟩
        = .ok ⟨ids.map (dlLookup store), ids.length⟩
  ∧ (ids.map (dlLookup store)).get? k = some none
  ∧ readRejectedMessagesV2 true store ⟨some ids, none, none, some a⟩
        = .error .typeErrorUndefinedField := by
  have hbase := readByIds_of_wf store hwf ids
  have hne : ids.isEmpty = false := by
    cases ids with
    | nil => simp [List.get?] at hk
    | cons x rest => rfl
  have hdl : dlLookup store i = none := by simp [dlLookup, habsent]
  have hget : (ids.map (dlLookup store)).get? k = some none := by
    rw [rmbGetMap, hk]
    simp [hdl]
  refine ⟨?_, hget, ?_⟩
  · simp [readRejectedMessagesV2, hne, hbase, applyActionFilter,
      Bind.bind, Except.bind, List.length_map]
  · have hmem : (none : Option DLRecord) ∈ ids.map (dlLookup store) :=
      rmbMemOfGet (ids.map (dlLookup store)) k none hget
    simp [readRejectedMessagesV2, hne, hbase, applyActionFilter_err a _ hmem,
      Bind.bind, Except.bind]

/-- Witness for C10: a one-record stream read with two ids, the second
absent; the count (2) exceeds the number of existing records (1). -/
theorem C10_absent_id_undefined_and_throw_witness :
    (readRejectedMessagesV2 true
        [⟨"1-1", [.plain "a", .jsonOf (.obj [("foo", "bar")]), .plain "g", .plain "c"]⟩]
        ⟨some ["1-1", "2-2"], none, none, none⟩
      = .ok ⟨["1-1", "2-2"].map (dlLookup
          [⟨"1-1", [.plain "a", .jsonOf (.obj [("foo", "bar")]), .plain "g", .plain "c"]⟩]),
          (["1-1", "2-2"] : List String).length⟩
  ∧ ((["1-1", "2-2"] : List String).map (dlLookup
        [⟨"1-1", [.plain "a", .jsonOf (.obj [("foo", "bar")]), .plain "g", .plain "c"]⟩])).get? 1
      = some none
  ∧ readRejectedMessagesV2 true
        [⟨"1-1", [.plain "a", .jsonOf (.obj [("foo", "bar")]), .plain "g", .plain "c"]⟩]
        ⟨some ["1-1", "2-2"], none, none, some (.plain "a")⟩
      = .error .typeErrorUndefinedField)
  ∧ (["1-1", "2-2"] : List String).length
      > ([⟨"1-1", [.plain "a", .jsonOf (.obj [("foo", "bar")]), .plain "g", .plain "c"]⟩]
          : List RawEntry).length :=
  ⟨C10_absent_id_undefined_and_throw
    [⟨"1-1", [.plain "a", .jsonOf (.obj [("foo", "bar")]), .plain "g", .plain "c"]⟩]
    ["1-1", "2-2"] 1 "2-2" (.plain "a") (by decide) (by decide) (by decide),
   by decide⟩
